import Mathlib

/-!
Verification development for `scripts/bench_vs_tiktoken.py`, the
benchmark-and-parity harness comparing the `llm-cost` tokenizer binary
against the `tiktoken` reference library.

The Python source is shallowly embedded: pure helpers become Lean
functions on `Nat`/`Int`/`ℚ`/`List`; the effectful process runner becomes
a pure function over an explicit environment (binary presence, per
invocation exit codes, stdout strings and elapsed times) returning an
outcome together with the temporary-file trace.  Python ints are embedded
as `Int`/`Nat` (they are unbounded), float arithmetic on latencies and
ratios as exact rationals `ℚ`.
-/

namespace LlmCostBench

/-! ### Statistics aggregator (BenchmarkResult derived properties) -/

/-- Python `min(xs)` on a non-empty list (junk value `0` on `[]`,
where the Python original raises `ValueError`). -/
def pyMin : List Nat → Nat
  | [] => 0
  | a :: as => as.foldl Nat.min a

/-- Python `max(xs)` on a non-empty list (junk value `0` on `[]`). -/
def pyMax : List Nat → Nat
  | [] => 0
  | a :: as => as.foldl Nat.max a

/-- Python `statistics.mean` (junk value on `[]`, where Python raises). -/
def pyMean (l : List Nat) : ℚ := (l.sum : ℚ) / (l.length : ℚ)

/-- Python `sorted(xs)`: the ascending sort of the list. -/
def sortAsc (l : List Nat) : List Nat := l.insertionSort (· ≤ ·)

/-- Python `statistics.median`: middle element for odd length, mean of the
two middle elements for even length (exact, in `ℚ`). Junk on `[]`. -/
def statMedian (l : List Nat) : ℚ :=
  let s := sortAsc l
  let n := l.length
  if n % 2 = 1 then (s.getD (n / 2) 0 : ℚ)
  else ((s.getD (n / 2 - 1) 0 : ℚ) + (s.getD (n / 2) 0 : ℚ)) / 2

/-- The dataclass `BenchmarkResult` of `bench_vs_tiktoken.py`. -/
structure BenchmarkResult where
  name : String
  encoding : String
  input_bytes : Nat
  iterations : Nat
  tokens : Int
  times_ns : List Nat
deriving DecidableEq

def BenchmarkResult.min_ns (r : BenchmarkResult) : Nat := pyMin r.times_ns

def BenchmarkResult.max_ns (r : BenchmarkResult) : Nat := pyMax r.times_ns

def BenchmarkResult.mean_ns (r : BenchmarkResult) : ℚ := pyMean r.times_ns

/-- Property `p50_ns`: `statistics.median(self.times_ns)`. -/
def BenchmarkResult.p50_ns (r : BenchmarkResult) : ℚ := statMedian r.times_ns

/-- Property `p95_ns`: `sorted_times[min(int(len(sorted_times)*0.95), len-1)]`.
For IEEE-754 doubles, `int(n * 0.95) = ⌊19·n/20⌋` for every list length `n`
that can arise (the relative error of the double nearest `0.95` is below
every half-ulp), so the index is embedded as exact `Nat` arithmetic. -/
def BenchmarkResult.p95_ns (r : BenchmarkResult) : Nat :=
  let s := sortAsc r.times_ns
  let idx := s.length * 19 / 20
  s.getD (min idx (s.length - 1)) 0

/-- Property `p99_ns`: same as `p95_ns` with `0.99`, i.e. index `⌊99·n/100⌋`
clamped to `n - 1`. -/
def BenchmarkResult.p99_ns (r : BenchmarkResult) : Nat :=
  let s := sortAsc r.times_ns
  let idx := s.length * 99 / 100
  s.getD (min idx (s.length - 1)) 0

/-- Property `throughput_mbps`: `0` when the mean is `0`, otherwise
`(input_bytes / (mean_ns / 1e9)) / 1e6`, exactly in `ℚ`. -/
def BenchmarkResult.throughput_mbps (r : BenchmarkResult) : ℚ :=
  if r.mean_ns = 0 then 0
  else ((r.input_bytes : ℚ) / (r.mean_ns / 1000000000)) / 1000000

/-- Modelled from the spec: the nearest-rank percentile rule of the spec,
"sort `T` ascending; let `idx = floor(n * p)`; clamp `idx` to `n - 1`;
return `T_sorted[idx]`", for a percentile `num/den`.  Stated from the
spec's words to be compared against the derived statistics above. -/
def specNearestRank (l : List Nat) (num den : Nat) : Nat :=
  let s := sortAsc l
  s.getD (min (l.length * num / den) (l.length - 1)) 0

/-! ### Character / string helpers

Python string operations are embedded as structurally recursive functions
over `List Char` so that every concrete instance reduces in the kernel.
The harness only ever lowercases / searches ASCII names and splits
subprocess stdout on whitespace. -/

/-- UTF-8 byte length of a character sequence (`len(text.encode("utf-8"))`). -/
def utf8Length (l : List Char) : Nat := (l.map Char.utf8Size).sum

/-- Python `str.lower()` restricted to ASCII letters (the only letters the
harness ever lowercases: implementation names such as `"tiktoken"`). -/
def lowerAscii (s : String) : String := ⟨s.data.map Char.toLower⟩

/-- Does the text (first argument) start with the pattern (second)? -/
def startsWithL : List Char → List Char → Bool
  | _, [] => true
  | [], _ :: _ => false
  | c :: cs, p :: ps => c == p && startsWithL cs ps

/-- Python `pat in s` (substring search) over character lists. -/
def hasSubstr : List Char → List Char → Bool
  | [], pat => pat.isEmpty
  | c :: cs, pat => startsWithL (c :: cs) pat || hasSubstr cs pat

/-- Python `pat in s` on strings. -/
def strContains (s pat : String) : Bool := hasSubstr s.data pat.data

/-- ASCII whitespace recognized by Python `str.split()` with no argument. -/
def isWs (c : Char) : Bool :=
  c == ' ' || c == '\t' || c == '\n' || c == '\r' || c == '\x0b' || c == '\x0c'

/-- Helper for `pySplitWs`: accumulates the current (reversed) word. -/
def splitWsAux : List Char → List Char → List (List Char)
  | [], cur => if cur.isEmpty then [] else [cur.reverse]
  | c :: cs, cur =>
    if isWs c then
      if cur.isEmpty then splitWsAux cs [] else cur.reverse :: splitWsAux cs []
    else splitWsAux cs (c :: cur)

/-- Python `s.split()`: split on runs of whitespace, dropping empty pieces. -/
def pySplitWs (s : String) : List (List Char) := splitWsAux s.data []

/-- Digit run of a Python integer literal: digits with single underscores
allowed only between digits (`prevUnderscore` tracks a pending `_`). -/
def pyDigits (prevUnderscore : Bool) (acc : Nat) : List Char → Option Nat
  | [] => if prevUnderscore then none else some acc
  | c :: cs =>
    if c.isDigit then pyDigits false (10 * acc + (c.toNat - 48)) cs
    else if c == '_' && !prevUnderscore then pyDigits true acc cs
    else none

/-- Python `int(s)` on a whitespace-free token: optional sign, then a
non-empty digit run; `none` models `ValueError`. -/
def pyInt : List Char → Option Int
  | [] => none
  | '-' :: rest =>
    match rest with
    | c :: cs => if c.isDigit then (pyDigits false (c.toNat - 48) cs).map (fun n => -(n : Int)) else none
    | [] => none
  | '+' :: rest =>
    match rest with
    | c :: cs => if c.isDigit then (pyDigits false (c.toNat - 48) cs).map (fun n => (n : Int)) else none
    | [] => none
  | c :: cs => if c.isDigit then (pyDigits false (c.toNat - 48) cs).map (fun n => (n : Int)) else none

/-- The stdout-parsing step of `benchmark_llm_cost`:
`int(output.split()[0])`, with both `ValueError` and `IndexError`
defaulting the token count to `0`. -/
def parseTokens (s : String) : Int :=
  match pySplitWs s with
  | [] => 0
  | w :: _ => (pyInt w).getD 0

/-- Does the stdout-parsing step fail (empty output or a first token that
is not a Python integer literal)? -/
def parseFails (s : String) : Bool :=
  match pySplitWs s with
  | [] => true
  | w :: _ => (pyInt w).isNone

/-! ### Corpus generator (`generate_test_data`) -/

/-- The fixed vocabulary of `generate_test_data`, transcribed verbatim. -/
def words : List String := [
  "the", "a", "an", "is", "it", "to", "of", "in", "on", "at",
  "and", "or", "but", "not", "for", "with", "as", "by", "from",
  "hello", "world", "this", "that", "have", "been", "will", "would",
  "could", "should", "about", "after", "before", "between", "through",
  "during", "within", "without", "because", "although", "however",
  "performance", "tokenization", "benchmark", "implementation",
  "optimization", "measurement", "comparison", "throughput",
  "processing", "algorithm", "application", "development",
  "function", "variable", "parameter", "interface", "component",
  "structure", "encoding", "decoding", "compression", "analysis",
  "100", "2024", "first", "second", "third", "example", "result"]

/-- The word picked on loop iteration `i`.  `random.choice(words)` with a
seeded generator is abstracted as an arbitrary selection stream
`choose : Nat → Nat` reduced modulo the vocabulary size; every seed
realizes some such stream, so properties proved for all streams hold for
all seeds. -/
def wordAt (choose : Nat → Nat) (i : Nat) : List Char :=
  (words.getD (choose i % words.length) "x").data

/-- The `while current_size < size_bytes` loop of `generate_test_data`.
Each iteration appends at least one character, so `size` units of fuel
always suffice; the fuel-exhausted branch is unreachable under the fuel
invariant used in the proofs. -/
def genLoop (size : Nat) (choose : Nat → Nat) :
    Nat → Nat → List Char → Nat → List Char
  | 0, _, acc, _ => acc
  | fuel + 1, i, acc, current =>
    if current < size then
      let addition := (if acc.isEmpty then [] else [' ']) ++ wordAt choose i
      if size < current + addition.length then
        acc ++ addition.take (size - current)
      else
        genLoop size choose fuel (i + 1) (acc ++ addition)
          (current + addition.length)
    else acc

/-- Function `generate_test_data(size_bytes, seed)`: the generated text as a
character sequence.  A negative `size_bytes` makes the loop guard
`current_size < size_bytes` immediately false, exactly as `Int.toNat`
sends non-positive sizes to `0`. -/
def generate_test_data (size_bytes : Int) (choose : Nat → Nat) : List Char :=
  genLoop size_bytes.toNat choose size_bytes.toNat 0 [] 0

/-! ### Invocation runners -/

/-- Function `benchmark_tiktoken`.  The reference library is abstracted as the
encode function `encode : String → List Nat` (token ids) and the measured
wall-clock deltas as `elapsed : Nat → Nat` (nanoseconds of the `i`-th
timed iteration).  The token count is captured from the first timed
iteration only (`tokens or 0` yields `0` when `iterations = 0`). -/
def benchmark_tiktoken (text encoding : String) (iterations warmup : Nat)
    (encode : String → List Nat) (elapsed : Nat → Nat) : BenchmarkResult :=
  { name := "tiktoken"
    encoding := encoding
    input_bytes := utf8Length text.data
    iterations := iterations
    tokens := if iterations = 0 then 0 else ((encode text).length : Int)
    times_ns := (List.range iterations).map elapsed }

/-- Exit of one `benchmark_llm_cost` call. -/
inductive RunOutcome where
  | raised
  | skipped
  | completed (r : BenchmarkResult)
deriving DecidableEq

/-- Result of running `benchmark_llm_cost`, together with the
temporary-file trace: whether the temp corpus file was ever created and
whether it still exists when the call finishes (returns or raises). -/
structure LlmCostRun where
  outcome : RunOutcome
  tempCreated : Bool
  tempLeft : Bool
deriving DecidableEq

/-- Function `benchmark_llm_cost`.  The environment is explicit:
`binaryExists` is `Path(binary_path).exists()`; `exitCode k` is the exit
status of the `k`-th subprocess invocation (warmup invocations are
`0, …, warmup-1`, timed ones follow); `stdout k` its standard output;
`elapsed i` the measured nanoseconds of the `i`-th timed iteration.

`subprocess.run(..., check=True)` raises `CalledProcessError` at the
first invocation with a non-zero exit status, so the call raises iff some
invocation among the `warmup + iterations` has a non-zero exit.  The
`try/finally` deletes the temp file on both the return and the raise
path, which is reflected in `tempLeft := false` on every branch that
created it. -/
def benchmark_llm_cost (text encoding : String) (iterations warmup : Nat)
    (binaryExists : Bool) (exitCode : Nat → Int) (stdout : Nat → String)
    (elapsed : Nat → Nat) : LlmCostRun :=
  if binaryExists = false then
    { outcome := .skipped, tempCreated := false, tempLeft := false }
  else
    match (List.range (warmup + iterations)).find? (fun k => exitCode k != 0) with
    | some _ => { outcome := .raised, tempCreated := true, tempLeft := false }
    | none =>
      { outcome := .completed
          { name := "llm-cost"
            encoding := encoding
            input_bytes := utf8Length text.data
            iterations := iterations
            tokens := if iterations = 0 then 0 else parseTokens (stdout warmup)
            times_ns := (List.range iterations).map elapsed }
        tempCreated := true
        tempLeft := false }

/-! ### Comparison analyzer / summary (`format_comparison_summary`) -/

/-- Abstract content of one line of the comparison summary. -/
inductive SummaryLine where
  | blank
  | header
  | resultLine (name : String) (mbps : ℚ) (tokens : Int)
  | parityOk (tokens : Int)
  | parityMismatch (diff : Nat) (refTokens candTokens : Int)
  | verdictFaster (ratio : ℚ)
  | verdictSlower (inverseRatio : ℚ)
  | verdictComparable (ratio : ℚ)
deriving DecidableEq

/-- The token-parity line (lines 339–343 of the script): parity when the
counts agree, otherwise the absolute difference together with both
values. -/
def parityLine (refTokens candTokens : Int) : SummaryLine :=
  if refTokens = candTokens then .parityOk refTokens
  else .parityMismatch (refTokens - candTokens).natAbs refTokens candTokens

/-- The verdict line (lines 348–353): `ratio > 1.1` → faster by `ratio`;
else `ratio < 0.9` → slower by `1/ratio`; otherwise comparable at
`ratio`. -/
def verdictLine (ratio : ℚ) : SummaryLine :=
  if 11/10 < ratio then .verdictFaster ratio
  else if ratio < 9/10 then .verdictSlower ratio⁻¹
  else .verdictComparable ratio

/-- Is a summary line one of the three verdict lines? -/
def SummaryLine.isVerdict : SummaryLine → Bool
  | .verdictFaster _ => true
  | .verdictSlower _ => true
  | .verdictComparable _ => true
  | _ => false

/-- Python `next((r for r in results if "tiktoken" in r.name.lower()), None)`. -/
def findTiktoken (results : List BenchmarkResult) : Option BenchmarkResult :=
  results.find? (fun r => strContains (lowerAscii r.name) "tiktoken")

/-- Python `next((r for r in results if "llm-cost" in r.name.lower()), None)`. -/
def findLlmCost (results : List BenchmarkResult) : Option BenchmarkResult :=
  results.find? (fun r => strContains (lowerAscii r.name) "llm-cost")

/-- Function `format_comparison_summary`, abstracting each emitted line to its
content.  Empty when fewer than two results are present or either
implementation is missing.  The float ratio is embedded exactly in `ℚ`
(the zero-throughput `ZeroDivisionError` case, an explicit open question
of the harness, maps to the total `ℚ` division yielding `0`). -/
def format_comparison_summary (results : List BenchmarkResult) :
    List SummaryLine :=
  if results.length < 2 then []
  else
    match findTiktoken results, findLlmCost results with
    | some tk, some lc =>
      let ratio := lc.throughput_mbps / tk.throughput_mbps
      [.blank, .header, .blank,
       .resultLine "tiktoken" tk.throughput_mbps tk.tokens,
       .resultLine "llm-cost" lc.throughput_mbps lc.tokens,
       .blank, parityLine tk.tokens lc.tokens, .blank, verdictLine ratio]
    | _, _ => []

/-! ### Helper lemmas: characters and the corpus generator -/

lemma ascii_utf8Size {c : Char} (h : c.toNat < 128) : c.utf8Size = 1 := by
  unfold Char.utf8Size
  rw [if_pos]
  change c.val.toBitVec ≤ _
  rw [BitVec.le_def]
  exact Nat.le_of_lt_succ h

lemma utf8Length_eq_length {l : List Char} (h : ∀ c ∈ l, c.toNat < 128) :
    utf8Length l = l.length := by
  induction l with
  | nil => rfl
  | cons c cs ih =>
    have hc : c.utf8Size = 1 := ascii_utf8Size (h c (by simp))
    have : utf8Length (c :: cs) = c.utf8Size + utf8Length cs := by
      simp [utf8Length]
    rw [this, hc, ih (fun x hx => h x (by simp [hx])), List.length_cons]
    omega

lemma words_length_pos : 0 < words.length := by decide

lemma words_wellFormed : ∀ w ∈ words, w.data ≠ [] ∧ ∀ c ∈ w.data, c.toNat < 128 := by
  decide

lemma wordAt_spec (choose : Nat → Nat) (i : Nat) :
    wordAt choose i ≠ [] ∧ ∀ c ∈ wordAt choose i, c.toNat < 128 := by
  unfold wordAt
  have hlt : choose i % words.length < words.length :=
    Nat.mod_lt _ words_length_pos
  rw [List.getD_eq_getElem?_getD, List.getElem?_eq_getElem hlt]
  exact words_wellFormed _ (List.getElem_mem _)

lemma genLoop_length (size : Nat) (choose : Nat → Nat) :
    ∀ (fuel i : Nat) (acc : List Char) (current : Nat),
      acc.length = current → current ≤ size → size ≤ current + fuel →
      (genLoop size choose fuel i acc current).length = size := by
  intro fuel
  induction fuel with
  | zero =>
    intro i acc current h1 h2 h3
    simp only [genLoop]
    omega
  | succ fuel ih =>
    intro i acc current h1 h2 h3
    simp only [genLoop]
    by_cases hcur : current < size
    · rw [if_pos hcur]
      have haddlen :
          0 < ((if acc.isEmpty then [] else [' ']) ++ wordAt choose i).length := by
        rw [List.length_append]
        have := (wordAt_spec choose i).1
        have := List.length_pos.mpr this
        omega
      by_cases htr :
          size < current + ((if acc.isEmpty then [] else [' ']) ++ wordAt choose i).length
      · rw [if_pos htr]
        rw [List.length_append, List.length_take]
        omega
      · rw [if_neg htr]
        apply ih
        · rw [List.length_append, h1]
        · omega
        · omega
    · rw [if_neg hcur]
      omega

lemma genLoop_ascii (size : Nat) (choose : Nat → Nat) :
    ∀ (fuel i : Nat) (acc : List Char) (current : Nat),
      (∀ c ∈ acc, c.toNat < 128) →
      ∀ c ∈ genLoop size choose fuel i acc current, c.toNat < 128 := by
  intro fuel
  induction fuel with
  | zero =>
    intro i acc current hacc
    simpa [genLoop] using hacc
  | succ fuel ih =>
    intro i acc current hacc
    simp only [genLoop]
    have haddascii :
        ∀ c ∈ (if acc.isEmpty then [] else [' ']) ++ wordAt choose i,
          c.toNat < 128 := by
      intro c hc
      rcases List.mem_append.mp hc with h | h
      · rcases List.mem_ite_nil_left.mp h with ⟨_, hmem⟩
        simp only [List.mem_singleton] at hmem
        subst hmem
        decide
      · exact (wordAt_spec choose i).2 c h
    by_cases hcur : current < size
    · rw [if_pos hcur]
      by_cases htr :
          size < current + ((if acc.isEmpty then [] else [' ']) ++ wordAt choose i).length
      · rw [if_pos htr]
        intro c hc
        rcases List.mem_append.mp hc with h | h
        · exact hacc c h
        · exact haddascii c (List.mem_of_mem_take h)
      · rw [if_neg htr]
        apply ih
        intro c hc
        rcases List.mem_append.mp hc with h | h
        · exact hacc c h
        · exact haddascii c h
    · rw [if_neg hcur]
      exact hacc

/-- C3: for every `size_bytes ≥ 0` and every selection stream (hence every
seed), the UTF-8 byte length of `generate_test_data(size_bytes, seed)` is
exactly `size_bytes`: the vocabulary is ASCII-only, so byte length equals
character length and truncation is byte-exact. -/
theorem generate_test_data_exact_length (size_bytes : Int)
    (choose : Nat → Nat) (h : 0 ≤ size_bytes) :
    (utf8Length (generate_test_data size_bytes choose) : Int) = size_bytes := by
  unfold generate_test_data
  have hlen : (genLoop size_bytes.toNat choose size_bytes.toNat 0 [] 0).length
      = size_bytes.toNat :=
    genLoop_length _ _ _ _ _ _ (by simp) (Nat.zero_le _) (by omega)
  have hascii := genLoop_ascii size_bytes.toNat choose size_bytes.toNat 0 [] 0
    (by simp)
  rw [utf8Length_eq_length hascii, hlen, Int.toNat_of_nonneg h]

/-- Witness for C3 at `size_bytes = 9` and the constant selection stream. -/
theorem generate_test_data_exact_length_witness :
    0 ≤ (9 : Int) ∧
      (utf8Length (generate_test_data 9 (fun _ => 0)) : Int) = 9 :=
  ⟨by decide, generate_test_data_exact_length 9 (fun _ => 0) (by decide)⟩

/-- C10: for every `size_bytes ≤ 0` (including negative values) and every
selection stream, `generate_test_data` returns the empty string (and, being
a total function, does not raise). -/
theorem generate_test_data_nonpos_empty (size_bytes : Int)
    (choose : Nat → Nat) (h : size_bytes ≤ 0) :
    generate_test_data size_bytes choose = [] := by
  unfold generate_test_data
  rw [Int.toNat_of_nonpos h]
  rfl

/-- Witness for C10 at `size_bytes = -7`. -/
theorem generate_test_data_nonpos_empty_witness :
    (-7 : Int) ≤ 0 ∧ generate_test_data (-7) (fun _ => 1) = [] :=
  ⟨by decide, generate_test_data_nonpos_empty (-7) (fun _ => 1) (by decide)⟩

/-! ### Helper lemmas: statistics -/

lemma foldl_min_le_init : ∀ (as : List Nat) (a : Nat), as.foldl Nat.min a ≤ a := by
  intro as
  induction as with
  | nil => intro a; simp
  | cons b bs ih =>
    intro a
    calc (b :: bs).foldl Nat.min a = bs.foldl Nat.min (Nat.min a b) := by simp
    _ ≤ Nat.min a b := ih _
    _ ≤ a := Nat.min_le_left _ _

lemma foldl_min_le_mem :
    ∀ (as : List Nat) (a x : Nat), x ∈ as → as.foldl Nat.min a ≤ x := by
  intro as
  induction as with
  | nil => intro a x hx; cases hx
  | cons b bs ih =>
    intro a x hx
    have step : (b :: bs).foldl Nat.min a = bs.foldl Nat.min (Nat.min a b) := by
      simp
    rcases List.mem_cons.mp hx with rfl | hx2
    · rw [step]
      calc bs.foldl Nat.min (Nat.min a x) ≤ Nat.min a x := foldl_min_le_init _ _
      _ ≤ x := Nat.min_le_right _ _
    · rw [step]
      exact ih _ _ hx2

lemma pyMin_le {l : List Nat} {x : Nat} (hx : x ∈ l) : pyMin l ≤ x := by
  cases l with
  | nil => cases hx
  | cons a as =>
    rw [pyMin]
    rcases List.mem_cons.mp hx with rfl | hx2
    · exact foldl_min_le_init _ _
    · exact foldl_min_le_mem _ _ _ hx2

lemma init_le_foldl_max : ∀ (as : List Nat) (a : Nat), a ≤ as.foldl Nat.max a := by
  intro as
  induction as with
  | nil => intro a; simp
  | cons b bs ih =>
    intro a
    calc a ≤ Nat.max a b := Nat.le_max_left _ _
    _ ≤ bs.foldl Nat.max (Nat.max a b) := ih _
    _ = (b :: bs).foldl Nat.max a := by simp

lemma mem_le_foldl_max :
    ∀ (as : List Nat) (a x : Nat), x ∈ as → x ≤ as.foldl Nat.max a := by
  intro as
  induction as with
  | nil => intro a x hx; cases hx
  | cons b bs ih =>
    intro a x hx
    have step : (b :: bs).foldl Nat.max a = bs.foldl Nat.max (Nat.max a b) := by
      simp
    rcases List.mem_cons.mp hx with rfl | hx2
    · rw [step]
      calc x ≤ Nat.max a x := Nat.le_max_right _ _
      _ ≤ bs.foldl Nat.max (Nat.max a x) := init_le_foldl_max _ _
    · rw [step]
      exact ih _ _ hx2

lemma le_pyMax {l : List Nat} {x : Nat} (hx : x ∈ l) : x ≤ pyMax l := by
  cases l with
  | nil => cases hx
  | cons a as =>
    rw [pyMax]
    rcases List.mem_cons.mp hx with rfl | hx2
    · exact init_le_foldl_max _ _
    · exact mem_le_foldl_max _ _ _ hx2

lemma sortAsc_sorted (l : List Nat) : (sortAsc l).Sorted (· ≤ ·) :=
  List.sorted_insertionSort _ l

lemma sortAsc_perm (l : List Nat) : List.Perm (sortAsc l) l :=
  List.perm_insertionSort _ l

lemma sortAsc_length (l : List Nat) : (sortAsc l).length = l.length :=
  (sortAsc_perm l).length_eq

lemma sortAsc_getD_mem {l : List Nat} {i : Nat} (h : i < l.length) :
    (sortAsc l).getD i 0 ∈ l := by
  have h2 : i < (sortAsc l).length := by rw [sortAsc_length]; exact h
  rw [List.getD_eq_getElem?_getD, List.getElem?_eq_getElem h2]
  exact (sortAsc_perm l).mem_iff.mp (List.getElem_mem _)

lemma sortAsc_getD_mono {l : List Nat} {i j : Nat} (hij : i ≤ j)
    (hj : j < l.length) : (sortAsc l).getD i 0 ≤ (sortAsc l).getD j 0 := by
  have hj2 : j < (sortAsc l).length := by rw [sortAsc_length]; exact hj
  have hi2 : i < (sortAsc l).length := lt_of_le_of_lt hij hj2
  simp only [List.getD_eq_getElem?_getD, List.getElem?_eq_getElem hi2,
    List.getElem?_eq_getElem hj2, Option.getD_some]
  have := (sortAsc_sorted l).rel_get_of_le
    (a := ⟨i, hi2⟩) (b := ⟨j, hj2⟩) (Fin.mk_le_mk.mpr hij)
  simpa [List.get_eq_getElem] using this

lemma pyMin_le_sorted_getD {l : List Nat} {i : Nat} (h : i < l.length) :
    pyMin l ≤ (sortAsc l).getD i 0 :=
  pyMin_le (sortAsc_getD_mem h)

lemma sorted_getD_le_pyMax {l : List Nat} {i : Nat} (h : i < l.length) :
    (sortAsc l).getD i 0 ≤ pyMax l :=
  le_pyMax (sortAsc_getD_mem h)

/-- C9: for every `BenchmarkResult` with non-empty `times_ns`, the derived
latency summary is ordered: `min_ns ≤ p50_ns ≤ p95_ns ≤ p99_ns ≤ max_ns`,
even though `p50_ns` (a median, possibly interpolated between the two
middle samples) and `p95_ns`/`p99_ns` (nearest-rank) are computed by
different methods. -/
theorem latency_summary_monotone (r : BenchmarkResult)
    (h : r.times_ns ≠ []) :
    (r.min_ns : ℚ) ≤ r.p50_ns ∧ r.p50_ns ≤ (r.p95_ns : ℚ) ∧
      (r.p95_ns : ℚ) ≤ (r.p99_ns : ℚ) ∧ (r.p99_ns : ℚ) ≤ (r.max_ns : ℚ) := by
  set l := r.times_ns with hl
  have hn : 0 < l.length := List.length_pos.mpr h
  set n := l.length with hnn
  have hs : (sortAsc l).length = n := sortAsc_length l
  have hidx95 : min ((sortAsc l).length * 19 / 20) ((sortAsc l).length - 1)
      = min (n * 19 / 20) (n - 1) := by rw [hs]
  have hidx99 : min ((sortAsc l).length * 99 / 100) ((sortAsc l).length - 1)
      = min (n * 99 / 100) (n - 1) := by rw [hs]
  have h95lt : min (n * 19 / 20) (n - 1) < n := by omega
  have h99lt : min (n * 99 / 100) (n - 1) < n := by omega
  have hmono5095 : n / 2 ≤ min (n * 19 / 20) (n - 1) := by omega
  have hmono9599 : min (n * 19 / 20) (n - 1) ≤ min (n * 99 / 100) (n - 1) := by
    have : n * 19 / 20 ≤ n * 99 / 100 := by omega
    omega
  have hp95 : r.p95_ns = (sortAsc l).getD (min (n * 19 / 20) (n - 1)) 0 := by
    rw [BenchmarkResult.p95_ns, ← hl, hidx95]
  have hp99 : r.p99_ns = (sortAsc l).getD (min (n * 99 / 100) (n - 1)) 0 := by
    rw [BenchmarkResult.p99_ns, ← hl, hidx99]
  refine ⟨?_, ?_, ?_, ?_⟩
  · -- min ≤ p50
    rw [BenchmarkResult.min_ns, BenchmarkResult.p50_ns, ← hl, statMedian, ← hnn]
    by_cases hpar : n % 2 = 1
    · rw [if_pos hpar]
      exact_mod_cast pyMin_le_sorted_getD (by omega)
    · rw [if_neg hpar]
      have h1 : pyMin l ≤ (sortAsc l).getD (n / 2 - 1) 0 :=
        pyMin_le_sorted_getD (by omega)
      have h2 : pyMin l ≤ (sortAsc l).getD (n / 2) 0 :=
        pyMin_le_sorted_getD (by omega)
      have h1q : (pyMin l : ℚ) ≤ ((sortAsc l).getD (n / 2 - 1) 0 : ℚ) := by
        exact_mod_cast h1
      have h2q : (pyMin l : ℚ) ≤ ((sortAsc l).getD (n / 2) 0 : ℚ) := by
        exact_mod_cast h2
      linarith
  · -- p50 ≤ p95
    rw [BenchmarkResult.p50_ns, ← hl, statMedian, ← hnn, hp95]
    by_cases hpar : n % 2 = 1
    · rw [if_pos hpar]
      exact_mod_cast sortAsc_getD_mono hmono5095 h95lt
    · rw [if_neg hpar]
      have hmid : (sortAsc l).getD (n / 2 - 1) 0 ≤ (sortAsc l).getD (n / 2) 0 :=
        sortAsc_getD_mono (by omega) (by omega)
      have hup : (sortAsc l).getD (n / 2) 0
          ≤ (sortAsc l).getD (min (n * 19 / 20) (n - 1)) 0 :=
        sortAsc_getD_mono hmono5095 h95lt
      have hmidq : ((sortAsc l).getD (n / 2 - 1) 0 : ℚ)
          ≤ ((sortAsc l).getD (n / 2) 0 : ℚ) := by exact_mod_cast hmid
      have hupq : ((sortAsc l).getD (n / 2) 0 : ℚ)
          ≤ ((sortAsc l).getD (min (n * 19 / 20) (n - 1)) 0 : ℚ) := by
        exact_mod_cast hup
      linarith
  · -- p95 ≤ p99
    rw [hp95, hp99]
    exact_mod_cast sortAsc_getD_mono hmono9599 h99lt
  · -- p99 ≤ max
    rw [hp99, BenchmarkResult.max_ns, ← hl]
    exact_mod_cast sorted_getD_le_pyMax h99lt

/-- Witness for C9 on the sample list `[30, 10, 20]`. -/
theorem latency_summary_monotone_witness :
    (BenchmarkResult.mk "tiktoken" "o200k_base" 3 3 5 [30, 10, 20]).times_ns ≠ [] ∧
    ((BenchmarkResult.mk "tiktoken" "o200k_base" 3 3 5 [30, 10, 20]).min_ns : ℚ) ≤
        (BenchmarkResult.mk "tiktoken" "o200k_base" 3 3 5 [30, 10, 20]).p50_ns ∧
      (BenchmarkResult.mk "tiktoken" "o200k_base" 3 3 5 [30, 10, 20]).p50_ns ≤
        ((BenchmarkResult.mk "tiktoken" "o200k_base" 3 3 5 [30, 10, 20]).p95_ns : ℚ) ∧
      ((BenchmarkResult.mk "tiktoken" "o200k_base" 3 3 5 [30, 10, 20]).p95_ns : ℚ) ≤
        ((BenchmarkResult.mk "tiktoken" "o200k_base" 3 3 5 [30, 10, 20]).p99_ns : ℚ) ∧
      ((BenchmarkResult.mk "tiktoken" "o200k_base" 3 3 5 [30, 10, 20]).p99_ns : ℚ) ≤
        ((BenchmarkResult.mk "tiktoken" "o200k_base" 3 3 5 [30, 10, 20]).max_ns : ℚ) :=
  ⟨by decide,
    latency_summary_monotone
      (BenchmarkResult.mk "tiktoken" "o200k_base" 3 3 5 [30, 10, 20]) (by decide)⟩

/-- C1 counterexample: on the two-sample list `[10, 20]` the code's
`p50_ns` is `statistics.median`, which interpolates to `15`, while the
claimed nearest-rank formula `sorted[min(floor(n*0.5), n-1)]` yields `20`.
So the claim fails for `p50` on even-length sample lists. -/
theorem p50_not_nearest_rank_on_even_samples :
    (BenchmarkResult.mk "tiktoken" "o200k_base" 2 2 1 [10, 20]).p50_ns = 15 ∧
      specNearestRank [10, 20] 1 2 = 20 ∧ ((15 : ℚ) ≠ (20 : ℚ)) := by
  refine ⟨?_, by decide, by norm_num⟩
  norm_num [BenchmarkResult.p50_ns, statMedian, sortAsc, List.insertionSort,
    List.orderedInsert]

/-- C1 (amended): for every non-empty `times_ns`, `p95_ns` and `p99_ns`
equal the nearest-rank element `sorted[min(floor(n*p), n-1)]`; `p50_ns`
is `statistics.median`, which agrees with the nearest-rank formula for
odd `n` (hence in particular for `n = 1` every percentile equals the
single sample) but interpolates between the two middle samples for even
`n`. -/
theorem percentile_statistics (r : BenchmarkResult) (h : r.times_ns ≠ []) :
    r.p95_ns = specNearestRank r.times_ns 19 20 ∧
      r.p99_ns = specNearestRank r.times_ns 99 100 ∧
      (r.times_ns.length % 2 = 1 →
        r.p50_ns = (specNearestRank r.times_ns 1 2 : ℚ)) ∧
      (∀ a : Nat, r.times_ns = [a] →
        r.p50_ns = (a : ℚ) ∧ r.p95_ns = a ∧ r.p99_ns = a) := by
  have hn : 0 < r.times_ns.length := List.length_pos.mpr h
  refine ⟨?_, ?_, ?_, ?_⟩
  · rw [BenchmarkResult.p95_ns, specNearestRank, sortAsc_length]
  · rw [BenchmarkResult.p99_ns, specNearestRank, sortAsc_length]
  · intro hodd
    rw [BenchmarkResult.p50_ns, statMedian, if_pos hodd, specNearestRank]
    have hidx : min (r.times_ns.length * 1 / 2) (r.times_ns.length - 1)
        = r.times_ns.length / 2 := by omega
    rw [hidx]
  · intro a ha
    refine ⟨?_, ?_, ?_⟩
    · rw [BenchmarkResult.p50_ns, ha]
      norm_num [statMedian, sortAsc, List.insertionSort, List.orderedInsert]
    · rw [BenchmarkResult.p95_ns, ha]
      norm_num [sortAsc, List.insertionSort, List.orderedInsert]
    · rw [BenchmarkResult.p99_ns, ha]
      norm_num [sortAsc, List.insertionSort, List.orderedInsert]

/-- Witness for the amended C1 on the sample list `[9, 7, 5]`. -/
theorem percentile_statistics_witness :
    (BenchmarkResult.mk "tiktoken" "o200k_base" 3 3 5 [9, 7, 5]).times_ns ≠ [] ∧
    ((BenchmarkResult.mk "tiktoken" "o200k_base" 3 3 5 [9, 7, 5]).p95_ns =
        specNearestRank [9, 7, 5] 19 20 ∧
      (BenchmarkResult.mk "tiktoken" "o200k_base" 3 3 5 [9, 7, 5]).p99_ns =
        specNearestRank [9, 7, 5] 99 100 ∧
      (([9, 7, 5] : List Nat).length % 2 = 1 →
        (BenchmarkResult.mk "tiktoken" "o200k_base" 3 3 5 [9, 7, 5]).p50_ns =
          (specNearestRank [9, 7, 5] 1 2 : ℚ)) ∧
      (∀ a : Nat, ([9, 7, 5] : List Nat) = [a] →
        (BenchmarkResult.mk "tiktoken" "o200k_base" 3 3 5 [9, 7, 5]).p50_ns = (a : ℚ) ∧
          (BenchmarkResult.mk "tiktoken" "o200k_base" 3 3 5 [9, 7, 5]).p95_ns = a ∧
          (BenchmarkResult.mk "tiktoken" "o200k_base" 3 3 5 [9, 7, 5]).p99_ns = a)) :=
  ⟨by decide,
    percentile_statistics
      (BenchmarkResult.mk "tiktoken" "o200k_base" 3 3 5 [9, 7, 5]) (by decide)⟩

/-! ### Runner theorems -/

/-- C2 counterexample: `int("-5")` succeeds in Python, so a subprocess
stdout of `"-5 tokens"` produces a completed `benchmark_llm_cost` result
with `tokens = -5 < 0`; the claim `tokens ≥ 0` does not hold for every
possible subprocess stdout. -/
theorem llm_cost_tokens_can_be_negative :
    (benchmark_llm_cost "x" "o200k_base" 1 0 true (fun _ => 0)
          (fun _ => "-5 tokens") (fun _ => 7)).outcome =
        .completed (BenchmarkResult.mk "llm-cost" "o200k_base" 1 1 (-5) [7]) ∧
      (-5 : Int) < 0 := by
  constructor
  · decide
  · decide

/-- C2 (amended): for every `iterations ≥ 1`, a completed runner result
has `len(times_ns) = iterations`; `tokens ≥ 0` holds unconditionally for
`benchmark_tiktoken`, and for `benchmark_llm_cost` whenever the parsed
first whitespace-delimited stdout token is non-negative (parse failures
default to `0`; a stdout whose first token parses as a negative integer
yields a negative `tokens`). -/
theorem completed_runner_shape (text encoding : String)
    (iterations warmup : Nat) (encode : String → List Nat)
    (elapsedLib : Nat → Nat) (binaryExists : Bool) (exitCode : Nat → Int)
    (stdout : Nat → String) (elapsed : Nat → Nat) (r : BenchmarkResult)
    (hiter : 1 ≤ iterations)
    (hc : (benchmark_llm_cost text encoding iterations warmup binaryExists
        exitCode stdout elapsed).outcome = .completed r) :
    (benchmark_tiktoken text encoding iterations warmup encode
        elapsedLib).times_ns.length = iterations ∧
      0 ≤ (benchmark_tiktoken text encoding iterations warmup encode
        elapsedLib).tokens ∧
      r.times_ns.length = iterations ∧
      (0 ≤ parseTokens (stdout warmup) → 0 ≤ r.tokens) := by
  rw [benchmark_llm_cost] at hc
  by_cases hb : binaryExists = false
  · rw [if_pos hb] at hc
    simp at hc
  · rw [if_neg hb] at hc
    cases hfind : (List.range (warmup + iterations)).find?
        (fun k => exitCode k != 0) with
    | some k =>
      rw [hfind] at hc
      simp at hc
    | none =>
      rw [hfind] at hc
      simp only [RunOutcome.completed.injEq] at hc
      refine ⟨?_, ?_, ?_, ?_⟩
      · simp [benchmark_tiktoken]
      · rw [benchmark_tiktoken]
        by_cases h0 : iterations = 0
        · simp [h0]
        · simp [h0]
      · rw [← hc]
        simp
      · intro hp
        rw [← hc]
        simp only []
        rw [if_neg (by omega)]
        exact hp

/-- Witness for the amended C2: one completed run of each runner with
`iterations = 1` and stdout `"3 tokens"`. -/
theorem completed_runner_shape_witness :
    1 ≤ 1 ∧
    (benchmark_llm_cost "x" "o200k_base" 1 0 true (fun _ => 0)
        (fun _ => "3 tokens") (fun _ => 7)).outcome =
      .completed (BenchmarkResult.mk "llm-cost" "o200k_base" 1 1 3 [7]) ∧
    ((benchmark_tiktoken "x" "o200k_base" 1 0 (fun _ => [1, 2])
        (fun _ => 5)).times_ns.length = 1 ∧
      0 ≤ (benchmark_tiktoken "x" "o200k_base" 1 0 (fun _ => [1, 2])
        (fun _ => 5)).tokens ∧
      (BenchmarkResult.mk "llm-cost" "o200k_base" 1 1 3 [7]).times_ns.length = 1 ∧
      (0 ≤ parseTokens ((fun _ => "3 tokens") 0) →
        0 ≤ (BenchmarkResult.mk "llm-cost" "o200k_base" 1 1 3 [7]).tokens)) :=
  ⟨le_refl 1, by decide,
    completed_runner_shape "x" "o200k_base" 1 0 (fun _ => [1, 2]) (fun _ => 5)
      true (fun _ => 0) (fun _ => "3 tokens") (fun _ => 7)
      (BenchmarkResult.mk "llm-cost" "o200k_base" 1 1 3 [7])
      (le_refl 1) (by decide)⟩

/-- C5: whenever `benchmark_llm_cost` reaches the point where the
temporary corpus file has been created, the file is deleted before the
call returns or raises, on every exit path (including a raise caused by a
non-zero subprocess exit status during warmup or timing). -/
theorem temp_file_cleanup (text encoding : String) (iterations warmup : Nat)
    (binaryExists : Bool) (exitCode : Nat → Int) (stdout : Nat → String)
    (elapsed : Nat → Nat)
    (h : (benchmark_llm_cost text encoding iterations warmup binaryExists
        exitCode stdout elapsed).tempCreated = true) :
    (benchmark_llm_cost text encoding iterations warmup binaryExists
        exitCode stdout elapsed).tempLeft = false := by
  rw [benchmark_llm_cost]
  by_cases hb : binaryExists = false
  · rw [if_pos hb]
  · rw [if_neg hb]
    cases hfind : (List.range (warmup + iterations)).find?
        (fun k => exitCode k != 0) with
    | some k => rfl
    | none => rfl

/-- Witness for C5 on a run whose very first warmup invocation fails with
exit status `1` (the raise path): the temp file was created and is gone. -/
theorem temp_file_cleanup_witness :
    (benchmark_llm_cost "x" "o200k_base" 1 1 true (fun _ => 1)
        (fun _ => "") (fun _ => 7)).tempCreated = true ∧
      (benchmark_llm_cost "x" "o200k_base" 1 1 true (fun _ => 1)
        (fun _ => "") (fun _ => 7)).tempLeft = false :=
  ⟨by decide,
    temp_file_cleanup "x" "o200k_base" 1 1 true (fun _ => 1)
      (fun _ => "") (fun _ => 7) (by decide)⟩

/-- C6: when the configured binary path does not exist,
`benchmark_llm_cost` returns absent (`skipped`, modelling `None` after the
warning) without creating a temporary file and without raising; and the
comparison summary is empty whenever fewer than two results are present,
so the verdict logic is omitted on such a run. -/
theorem missing_binary_skips (text encoding : String)
    (iterations warmup : Nat) (exitCode : Nat → Int) (stdout : Nat → String)
    (elapsed : Nat → Nat) (results : List BenchmarkResult)
    (hres : results.length < 2) :
    benchmark_llm_cost text encoding iterations warmup false exitCode
        stdout elapsed
      = { outcome := .skipped, tempCreated := false, tempLeft := false } ∧
    format_comparison_summary results = [] := by
  constructor
  · rw [benchmark_llm_cost, if_pos rfl]
  · rw [format_comparison_summary, if_pos hres]

/-- Witness for C6 with an empty result list. -/
theorem missing_binary_skips_witness :
    ([] : List BenchmarkResult).length < 2 ∧
    (benchmark_llm_cost "x" "o200k_base" 1 1 false (fun _ => 0)
        (fun _ => "") (fun _ => 7)
      = { outcome := .skipped, tempCreated := false, tempLeft := false } ∧
      format_comparison_summary [] = []) :=
  ⟨by decide,
    missing_binary_skips "x" "o200k_base" 1 1 (fun _ => 0) (fun _ => "")
      (fun _ => 7) [] (by decide)⟩

/-- C7: when every subprocess invocation succeeds (exit status `0`) but
the stdout of the first timed invocation does not parse as an integer-led
token count (non-numeric first token, or empty output), the runner
completes normally with the token count defaulted to `0`. -/
theorem unparsable_stdout_defaults_zero (text encoding : String)
    (iterations warmup : Nat) (exitCode : Nat → Int) (stdout : Nat → String)
    (elapsed : Nat → Nat) (hiter : 1 ≤ iterations)
    (hexit : ∀ k, k < warmup + iterations → exitCode k = 0)
    (hfail : parseFails (stdout warmup) = true) :
    (benchmark_llm_cost text encoding iterations warmup true exitCode
        stdout elapsed).outcome
      = .completed (BenchmarkResult.mk "llm-cost" encoding
          (utf8Length text.data) iterations 0
          ((List.range iterations).map elapsed)) := by
  rw [benchmark_llm_cost, if_neg (by simp)]
  have hnone : (List.range (warmup + iterations)).find?
      (fun k => exitCode k != 0) = none := by
    rw [List.find?_eq_none]
    intro k hk
    simp [hexit k (List.mem_range.mp hk)]
  rw [hnone]
  have hpt : parseTokens (stdout warmup) = 0 := by
    rw [parseTokens]
    rw [parseFails] at hfail
    cases hsplit : pySplitWs (stdout warmup) with
    | nil => rfl
    | cons w ws =>
      rw [hsplit] at hfail
      have hfail2 : (pyInt w).isNone = true := hfail
      rw [Option.isNone_iff_eq_none] at hfail2
      show (pyInt w).getD 0 = 0
      rw [hfail2]
      rfl
  simp only []
  rw [if_neg (by omega), hpt]

/-- Witness for C7: one timed iteration whose stdout is `"oops"`. -/
theorem unparsable_stdout_defaults_zero_witness :
    1 ≤ 1 ∧ parseFails "oops" = true ∧
    (benchmark_llm_cost "ab" "cl100k_base" 1 2 true (fun _ => 0)
        (fun _ => "oops") (fun _ => 11)).outcome
      = .completed (BenchmarkResult.mk "llm-cost" "cl100k_base"
          (utf8Length "ab".data) 1 0 ((List.range 1).map (fun _ => 11))) :=
  ⟨le_refl 1, by decide,
    unparsable_stdout_defaults_zero "ab" "cl100k_base" 1 2 (fun _ => 0)
      (fun _ => "oops") (fun _ => 11) (le_refl 1) (fun k hk => rfl)
      (by decide)⟩

/-! ### Comparison analyzer theorems -/

lemma elevenTenths_lt_two : (11 / 10 : ℚ) < 2 := by norm_num

/-- C4: the verdict is decided by exclusive threshold comparisons in
order, first match winning: `ratio > 1.1` → faster by `ratio`; else
`ratio < 0.9` → slower by `1/ratio`; otherwise comparable at `ratio`.
In particular the boundary ratios `1.1` and `0.9` both yield
"comparable". -/
theorem verdict_thresholds :
    (∀ ratio : ℚ, 11 / 10 < ratio →
        verdictLine ratio = .verdictFaster ratio) ∧
      (∀ ratio : ℚ, ¬ 11 / 10 < ratio → ratio < 9 / 10 →
        verdictLine ratio = .verdictSlower ratio⁻¹) ∧
      (∀ ratio : ℚ, ¬ 11 / 10 < ratio → ¬ ratio < 9 / 10 →
        verdictLine ratio = .verdictComparable ratio) ∧
      verdictLine (11 / 10) = .verdictComparable (11 / 10) ∧
      verdictLine (9 / 10) = .verdictComparable (9 / 10) := by
  refine ⟨?_, ?_, ?_, ?_, ?_⟩
  · intro ratio h
    rw [verdictLine, if_pos h]
  · intro ratio h1 h2
    rw [verdictLine, if_neg h1, if_pos h2]
  · intro ratio h1 h2
    rw [verdictLine, if_neg h1, if_neg h2]
  · rw [verdictLine, if_neg (lt_irrefl _), if_neg (by norm_num)]
  · rw [verdictLine, if_neg (by norm_num), if_neg (lt_irrefl _)]

/-- Witness for C4 at `ratio = 2`, which is above the faster threshold. -/
theorem verdict_thresholds_witness :
    (11 / 10 : ℚ) < 2 ∧ verdictLine 2 = .verdictFaster 2 :=
  ⟨elevenTenths_lt_two, verdict_thresholds.1 2 elevenTenths_lt_two⟩

lemma verdictLine_isVerdict (ratio : ℚ) :
    (verdictLine ratio).isVerdict = true := by
  rw [verdictLine]
  by_cases h1 : 11 / 10 < ratio
  · rw [if_pos h1]; rfl
  · rw [if_neg h1]
    by_cases h2 : ratio < 9 / 10
    · rw [if_pos h2]; rfl
    · rw [if_neg h2]; rfl

/-- C8: whenever both the reference and the candidate result are present
in the summary, line 6 of the summary is the token-parity report
(`parityOk` exactly when the counts agree, otherwise the absolute
difference together with both values) and line 8 is the performance
verdict; the parity report is produced unconditionally and strictly
before the verdict. -/
theorem parity_reported_before_verdict (results : List BenchmarkResult)
    (tk lc : BenchmarkResult) (h1 : findTiktoken results = some tk)
    (h2 : findLlmCost results = some lc) (h3 : ¬ results.length < 2) :
    (format_comparison_summary results).getD 6 .blank
        = parityLine tk.tokens lc.tokens ∧
      (tk.tokens = lc.tokens →
        parityLine tk.tokens lc.tokens = .parityOk tk.tokens) ∧
      (tk.tokens ≠ lc.tokens →
        parityLine tk.tokens lc.tokens
          = .parityMismatch (tk.tokens - lc.tokens).natAbs tk.tokens
              lc.tokens) ∧
      ((format_comparison_summary results).getD 8 .blank).isVerdict = true ∧
      (format_comparison_summary results).length = 9 := by
  rw [format_comparison_summary, if_neg h3, h1, h2]
  refine ⟨rfl, ?_, ?_, ?_, rfl⟩
  · intro he
    rw [parityLine, if_pos he]
  · intro hne
    rw [parityLine, if_neg hne]
  · exact verdictLine_isVerdict _

/-- Witness for C8 on a two-element result list with equal token counts. -/
theorem parity_reported_before_verdict_witness :
    findTiktoken [BenchmarkResult.mk "tiktoken" "e" 100 1 42 [10],
        BenchmarkResult.mk "llm-cost" "e" 100 1 42 [5]]
      = some (BenchmarkResult.mk "tiktoken" "e" 100 1 42 [10]) ∧
    findLlmCost [BenchmarkResult.mk "tiktoken" "e" 100 1 42 [10],
        BenchmarkResult.mk "llm-cost" "e" 100 1 42 [5]]
      = some (BenchmarkResult.mk "llm-cost" "e" 100 1 42 [5]) ∧
    (format_comparison_summary [BenchmarkResult.mk "tiktoken" "e" 100 1 42 [10],
        BenchmarkResult.mk "llm-cost" "e" 100 1 42 [5]]).getD 6 .blank
      = parityLine (BenchmarkResult.mk "tiktoken" "e" 100 1 42 [10]).tokens
          (BenchmarkResult.mk "llm-cost" "e" 100 1 42 [5]).tokens ∧
    ((format_comparison_summary [BenchmarkResult.mk "tiktoken" "e" 100 1 42 [10],
        BenchmarkResult.mk "llm-cost" "e" 100 1 42 [5]]).getD 8 .blank).isVerdict
      = true :=
  ⟨by decide, by decide,
    (parity_reported_before_verdict
      [BenchmarkResult.mk "tiktoken" "e" 100 1 42 [10],
        BenchmarkResult.mk "llm-cost" "e" 100 1 42 [5]]
      (BenchmarkResult.mk "tiktoken" "e" 100 1 42 [10])
      (BenchmarkResult.mk "llm-cost" "e" 100 1 42 [5])
      (by decide) (by decide) (by decide)).1,
    (parity_reported_before_verdict
      [BenchmarkResult.mk "tiktoken" "e" 100 1 42 [10],
        BenchmarkResult.mk "llm-cost" "e" 100 1 42 [5]]
      (BenchmarkResult.mk "tiktoken" "e" 100 1 42 [10])
      (BenchmarkResult.mk "llm-cost" "e" 100 1 42 [5])
      (by decide) (by decide) (by decide)).2.2.2.1⟩

end LlmCostBench
